import Mathlib

/-!
Shallow embedding of the Zeus job-dispatch and status-tracking subsystem
(src/app.py and src/inference.py), together with theorems settling the
specification claims about it.

The Redis hash holding job statuses is modelled as an association list from
job id to encoded status string (`Store`); the filesystem is modelled as a
boolean existence predicate on paths; paths are lists of segments.  The
opaque compute routine is modelled by the sequence of percent values it
passes to the progress callback followed by its outcome (normal return or
exception).
-/

set_option maxHeartbeats 1000000

namespace Zeus

/-- A Redis hash (field ↦ value), as an association list. -/
abbrev Store := List (String × String)

/-- Model of redis `HSET key field value`: replace the binding if the field
is present, otherwise append it. -/
def hset : Store → String → String → Store
  | [], f, v => [(f, v)]
  | (k, w) :: rest, f, v =>
      if k = f then (f, v) :: rest else (k, w) :: hset rest f v

/-- Model of redis `HGET key field`. -/
def hget : Store → String → Option String
  | [], _ => none
  | (k, w) :: rest, f => if k = f then some w else hget rest f

/-- Whitespace characters stripped by Python's `int(str)` conversion
(ASCII fragment). -/
def isPySpace (c : Char) : Bool :=
  c = ' ' || c = '\t' || c = '\n' || c = '\r' || c = '\u000B' || c = '\u000C'

/-- ASCII decimal digit test, as accepted by Python's `int(str)`. -/
def isPyDigit (c : Char) : Bool :=
  '0' ≤ c && c ≤ '9'

/-- Numeric value of a decimal digit character. -/
def digitVal (c : Char) : Nat := c.toNat - '0'.toNat

/-- After the first digit, Python's integer literal grammar allows further
digits with single underscores strictly between digits. -/
def pyDigitsRest : List Char → Option (List Nat)
  | [] => some []
  | ['_'] => none
  | '_' :: c :: rest =>
      if isPyDigit c then (pyDigitsRest rest).map (fun ds => digitVal c :: ds)
      else none
  | c :: rest =>
      if isPyDigit c then (pyDigitsRest rest).map (fun ds => digitVal c :: ds)
      else none

/-- A digit part: at least one digit, then `pyDigitsRest`. -/
def pyDigitPart : List Char → Option (List Nat)
  | [] => none
  | c :: rest =>
      if isPyDigit c then (pyDigitsRest rest).map (fun ds => digitVal c :: ds)
      else none

/-- Recombine a big-endian digit list into a natural number. -/
def natFromDigits (ds : List Nat) : Nat := ds.foldl (fun a d => 10 * a + d) 0

/-- Model of Python's `int(s)` on a string: optional surrounding whitespace,
optional sign, then a digit part; `none` models the `ValueError`. -/
def pyParseInt (s : String) : Option Int :=
  let l := ((s.toList.dropWhile isPySpace).reverse.dropWhile isPySpace).reverse
  match l with
  | '+' :: rest => (pyDigitPart rest).map (fun ds => (natFromDigits ds : Int))
  | '-' :: rest => (pyDigitPart rest).map (fun ds => -(natFromDigits ds : Int))
  | rest => (pyDigitPart rest).map (fun ds => (natFromDigits ds : Int))

namespace AppPy

/-- app.py `_format_status`: `state` when percent is absent, otherwise
`f"{state}:{max(0, min(100, percent))}"`. -/
def _format_status (state : String) (percent : Option Int) : String :=
  match percent with
  | none => state
  | some p => state ++ ":" ++ toString (max 0 (min 100 p))

end AppPy

namespace InferencePy

/-- inference.py `_format_status`: textually the same bounding logic as the
front-end copy. -/
def _format_status (state : String) (percent : Option Int) : String :=
  match percent with
  | none => state
  | some p => state ++ ":" ++ toString (max 0 (min 100 p))

end InferencePy

/-- Python `status_raw.split(":", 1)` restricted to the case where a colon
is present: the characters before the first colon, and all characters after
it. -/
def splitFirstColon : List Char → List Char × List Char
  | [] => ([], [])
  | c :: rest =>
      if c = ':' then ([], rest)
      else
        let p := splitFirstColon rest
        (c :: p.1, p.2)

/-- The decoded view of a status record: a state name and an optional
percent. -/
structure StatusView where
  status : String
  percent : Option Int
  deriving DecidableEq, Repr

/-- The decoding logic of app.py `get_job_status`: split on the first `:`;
the left side is the state; the right side is the percent when
`int(...)` succeeds, otherwise no percent is reported. -/
def get_job_status_view (status_raw : String) : StatusView :=
  if ':' ∈ status_raw.toList then
    let p := splitFirstColon status_raw.toList
    { status := String.mk p.1, percent := pyParseInt (String.mk p.2) }
  else
    { status := status_raw, percent := none }

/-- The JSON body and code of app.py `get_job_status`'s response. -/
inductive JobStatusResponse where
  | notFound (job_id : String)
  | ok (job_id status handled_by : String) (percent : Option Int)
  deriving DecidableEq, Repr

/-- app.py `get_job_status` route: look up the raw status (absent ⇒ 404),
decode it, refresh the handler-attribution hash and answer 200.  Returns
the response together with the updated metadata hash. -/
def get_job_status_route (status_store meta_store : Store)
    (app_instance job_id : String) : JobStatusResponse × Store :=
  match hget status_store job_id with
  | none => (.notFound job_id, meta_store)
  | some status_raw =>
      let v := get_job_status_view status_raw
      (.ok job_id v.status app_instance v.percent,
       hset meta_store job_id app_instance)

/-- The readiness triple reported by app.py `_server_status`. -/
structure ServerStatus where
  ready : Bool
  building : Bool
  message : String
  deriving DecidableEq, Repr

/-- app.py `_server_status`: marker-existence checks with fixed messages.
The filesystem is the existence predicate `fsExists`. -/
def _server_status (server_ready_path server_building_path : Option String)
    (fsExists : String → Bool) : ServerStatus :=
  match server_ready_path with
  | none =>
      { ready := true, building := false, message := "Server status not tracked." }
  | some rp =>
      let ready := fsExists rp
      if ready then
        { ready := true, building := false, message := "Server ready" }
      else
        let building :=
          match server_building_path with
          | some bp => fsExists bp
          | none => false
        { ready := false, building := building,
          message :=
            if building then
              "Server is currently building. Generation will be available once preparation completes."
            else
              "Server is not yet ready." }

/-- The job descriptor pushed on the queue by app.py `generate`. -/
structure JobDescriptor where
  job_id : String
  prompt : String
  handled_by : Option String
  deriving DecidableEq, Repr

/-- The shared state touched by the front end: status hash, metadata hash
and the job queue. -/
structure AppState where
  status_store : Store
  meta_store : Store
  queue : List JobDescriptor
  deriving DecidableEq, Repr

/-- The responses app.py `generate` can build itself. -/
inductive HttpResponse where
  | badRequest (error : String)
  | unavailable (error message : String)
  | accepted (job_id status : String) (percent_complete : Int) (handled_by : String)
  deriving DecidableEq, Repr

/-- app.py `generate`: validate the prompt, consult the readiness gate,
then issue the status write, the attribution write and the queue push as
one pipeline.  `storeOk = false` models the pipeline `execute()` raising
(redis unreachable); the route has no handler for it, so the exception
propagates (`Except.error ()`) and no state changes.  The fresh
`uuid.uuid4()` is modelled by the `job_id` parameter. -/
def generate (server_ready_path server_building_path : Option String)
    (fsExists : String → Bool) (storeOk : Bool) (prompt : Option String)
    (job_id app_instance : String) (st : AppState) :
    Except Unit (AppState × HttpResponse) :=
  if prompt = none ∨ prompt = some "" then
    .ok (st, .badRequest "prompt is required")
  else
    let status := _server_status server_ready_path server_building_path fsExists
    if status.ready = false then
      .ok (st, .unavailable "model_not_ready" status.message)
    else if storeOk = false then
      .error ()
    else
      .ok ({ status_store :=
               hset st.status_store job_id (AppPy._format_status "queued" (some 0)),
             meta_store := hset st.meta_store job_id app_instance,
             queue := st.queue ++
               [{ job_id := job_id, prompt := prompt.getD "",
                  handled_by := some app_instance }] },
           .accepted job_id "queued" 0 app_instance)

/-- One lexical canonicalization step: `..` removes the last segment (at
the root it stays at the root), `.` and empty segments vanish, anything
else is appended. -/
def stepSeg (acc : List String) (seg : String) : List String :=
  if seg = ".." then acc.dropLast
  else if seg = "." ∨ seg = "" then acc
  else acc ++ [seg]

/-- Lexical model of `Path.resolve()` on an absolute segment list. -/
def resolveSegs (segs : List String) : List String := segs.foldl stepSeg []

/-- Outcome of app.py `get_job_output`. -/
inductive OutputResult where
  | invalidId
  | notFound (job_id : String)
  | file (path : List String)
  deriving DecidableEq, Repr

/-- app.py `get_job_output`: reject job ids containing a path separator,
build `generated_root / job_id / "out.mp4"`, resolve it, require
`relative_to(generated_root)` (lexical prefix) to succeed, then check
existence.  `generated_root` is the already-resolved root's segments. -/
def get_job_output (generated_root : List String)
    (fsExists : List String → Bool) (job_id : String) : OutputResult :=
  if '/' ∈ job_id.toList ∨ '\\' ∈ job_id.toList then
    .invalidId
  else
    let file_path := resolveSegs (generated_root ++ [job_id, "out.mp4"])
    if generated_root.isPrefixOf file_path then
      if fsExists file_path then .file file_path else .notFound job_id
    else
      .invalidId

/-- Outcome of one invocation of the opaque compute routine: either a
normal return or an exception. -/
inductive RunOutcome where
  | success
  | failure
  deriving DecidableEq, Repr

/-- Model of one run of the compute routine: the percent values it passes
to the progress callback, in order, followed by its outcome. -/
structure JobRun where
  progress : List Int
  outcome : RunOutcome
  deriving DecidableEq, Repr

/-- The worker-side state while a job is processed: the `last_percent`
closure variable, the two Redis hashes, and the log of status writes made
so far (job id, encoded value). -/
structure WorkerState where
  last_percent : Int
  status_store : Store
  meta_store : Store
  writes : List (String × String)
  deriving DecidableEq, Repr

/-- inference.py `InferenceWorker._set_status`: one HSET of the formatted
status, also recorded in the write log. -/
def _set_status (st : WorkerState) (job_id state : String)
    (percent : Option Int) : WorkerState :=
  let raw := InferencePy._format_status state percent
  { st with status_store := hset st.status_store job_id raw,
            writes := st.writes ++ [(job_id, raw)] }

/-- inference.py `progress_callback` inside `_process_job`: bound the
percent to [0, 99] and republish `running:bounded` only when it changed. -/
def progress_callback (job_id : String) (st : WorkerState) (percent : Int) :
    WorkerState :=
  let bounded := max 0 (min 99 percent)
  if bounded ≠ st.last_percent then
    _set_status { st with last_percent := bounded } job_id "running" (some bounded)
  else
    st

/-- The sequence of progress-callback invocations made by one run of the
compute routine. -/
def run_callbacks (job_id : String) : WorkerState → List Int → WorkerState
  | st, [] => st
  | st, p :: ps => run_callbacks job_id (progress_callback job_id st p) ps

/-- The attribution step of `_process_job`: `if handler:` record the
handler in the metadata hash (Python's truthiness skips `None` and `""`). -/
def record_attribution (st : WorkerState) (job : JobDescriptor) : WorkerState :=
  match job.handled_by with
  | some h =>
      if h ≠ "" then
        { st with meta_store := hset st.meta_store job.job_id h }
      else st
  | none => st

/-- inference.py `InferenceWorker._process_job`: record attribution when
the descriptor carries a truthy handler, set `running:0`, drive the compute
routine, then write the terminal status — `completed:100` on success, or
`failed:min(100, last_percent)` when the routine raises. -/
def _process_job (status_store meta_store : Store) (job : JobDescriptor)
    (run : JobRun) : WorkerState :=
  let st0 : WorkerState :=
    { last_percent := 0, status_store := status_store,
      meta_store := meta_store, writes := [] }
  let st1 := record_attribution st0 job
  let st2 := _set_status st1 job.job_id "running" (some 0)
  let st3 := run_callbacks job.job_id st2 run.progress
  match run.outcome with
  | .success => _set_status st3 job.job_id "completed" (some 100)
  | .failure =>
      _set_status st3 job.job_id "failed" (some (min 100 st3.last_percent))

/-- inference.py `InferenceWorker.run`: process the dequeued jobs one after
another; `_process_job` never lets a job's exception escape, so the loop
reaches every later job.  Returns the final status and metadata hashes. -/
def worker_run (status_store meta_store : Store) :
    List (JobDescriptor × JobRun) → Store × Store
  | [] => (status_store, meta_store)
  | (j, r) :: rest =>
      let st := _process_job status_store meta_store j r
      worker_run st.status_store st.meta_store rest

/-! ## Basic lemmas about the store and the status encoding -/

theorem hget_hset_self (s : Store) (f v : String) : hget (hset s f v) f = some v := by
  induction s with
  | nil => simp [hset, hget]
  | cons kv rest ih =>
      obtain ⟨k, w⟩ := kv
      by_cases hk : k = f
      · simp [hset, hget, hk]
      · simp [hset, hget, hk, ih]

theorem hget_hset_other (s : Store) (f g v : String) (h : g ≠ f) :
    hget (hset s f v) g = hget s g := by
  induction s with
  | nil => simp [hset, hget, Ne.symm h]
  | cons kv rest ih =>
      obtain ⟨k, w⟩ := kv
      by_cases hk : k = f
      · subst hk
        simp [hset, hget, Ne.symm h]
      · by_cases hg : k = g
        · simp [hset, hget, hk, hg, h]
        · simp [hset, hget, hk, hg, ih]

theorem string_mk_toList (s : String) : String.mk s.toList = s := rfl

theorem string_toList_append (s t : String) :
    (s ++ t).toList = s.toList ++ t.toList := rfl

theorem splitFirstColon_append (l1 l2 : List Char) (h : ':' ∉ l1) :
    splitFirstColon (l1 ++ ':' :: l2) = (l1, l2) := by
  induction l1 with
  | nil => simp [splitFirstColon]
  | cons c cs ih =>
      have hc : ¬ c = ':' := fun e => h (e ▸ List.mem_cons_self c cs)
      have h' : ':' ∉ cs := fun m => h (List.mem_cons_of_mem _ m)
      simp [splitFirstColon, hc, ih h']

theorem pyParseInt_toString_of_le (p : Int) (h0 : 0 ≤ p) (h1 : p ≤ 100) :
    pyParseInt (toString p) = some p := by
  interval_cases p <;> rfl

theorem clamp100_of_le (q : Int) (h0 : 0 ≤ q) (h1 : q ≤ 100) :
    max 0 (min 100 q) = q := by
  rw [min_eq_right h1, max_eq_right h0]

theorem bounded99_nonneg (p : Int) : 0 ≤ max 0 (min 99 p) := le_max_left 0 _

theorem bounded99_le (p : Int) : max 0 (min 99 p) ≤ 99 :=
  max_le (by norm_num) (min_le_left _ _)

theorem get_job_status_view_format (s : String) (hs : ':' ∉ s.toList) (p : Int)
    (h0 : 0 ≤ p) (h1 : p ≤ 100) :
    get_job_status_view (s ++ ":" ++ toString p) = ⟨s, some p⟩ := by
  have hlist : (s ++ ":" ++ toString p).toList
      = s.toList ++ ':' :: (toString p).toList := by
    rw [string_toList_append, string_toList_append]
    simp
  have hmem : ':' ∈ (s ++ ":" ++ toString p).toList := by
    rw [hlist]
    exact List.mem_append_right _ (List.mem_cons_self _ _)
  unfold get_job_status_view
  rw [if_pos hmem, hlist, splitFirstColon_append _ _ hs]
  simp only [string_mk_toList]
  rw [pyParseInt_toString_of_le p h0 h1]

/-! ## Claim theorems: status formatting and decoding -/

/-- C9: the status formatter defined in app.py and the one defined in
inference.py are extensionally equal: for every state string and optional
integer percent they return the same encoded string. -/
theorem C9_format_status_extensional (state : String) (percent : Option Int) :
    AppPy._format_status state percent = InferencePy._format_status state percent :=
  rfl

/-- C4: for a status string `state:percent` with a colon-free state and
percent the decimal rendering of an integer in [0, 100], decoding with the
status decoder and re-encoding the resulting state and percent with the
status formatter reproduces the original string byte-for-byte. -/
theorem C4_decode_encode_roundtrip (state : String) (p : Int)
    (hs : ':' ∉ state.toList) (h0 : 0 ≤ p) (h1 : p ≤ 100) :
    AppPy._format_status (get_job_status_view (state ++ ":" ++ toString p)).status
        (get_job_status_view (state ++ ":" ++ toString p)).percent
      = state ++ ":" ++ toString p := by
  rw [get_job_status_view_format state hs p h0 h1]
  show state ++ ":" ++ toString (max 0 (min 100 p)) = state ++ ":" ++ toString p
  rw [clamp100_of_le p h0 h1]

/-- Witness for C4 at the concrete status string `running:42`. -/
theorem C4_witness :
    AppPy._format_status
        (get_job_status_view ("running" ++ ":" ++ toString (42 : Int))).status
        (get_job_status_view ("running" ++ ":" ++ toString (42 : Int))).percent
      = "running" ++ ":" ++ toString (42 : Int) :=
  C4_decode_encode_roundtrip "running" 42 (by decide) (by decide) (by decide)

theorem get_job_status_view_malformed (raw : String) (hc : ':' ∈ raw.toList)
    (hbad : pyParseInt (String.mk (splitFirstColon raw.toList).2) = none) :
    get_job_status_view raw = ⟨String.mk (splitFirstColon raw.toList).1, none⟩ := by
  unfold get_job_status_view
  rw [if_pos hc]
  simp only [hbad]

/-! ## Claim theorems: the status, submit and readiness routes -/

/-- C2 counterexample: for the stored status `foo:bar` (whose right side is
not integer-parseable) the route reports state `foo`, the left side of the
split — not the entire stored string, as the claim states. -/
theorem C2_counterexample :
    (get_job_status_route (hset [] "job-7" "foo:bar") [] "app1" "job-7").1
        = .ok "job-7" "foo" "app1" none
    ∧ "foo" ≠ "foo:bar" := by
  constructor
  · rfl
  · decide

/-- C2 (amended): for every stored status containing a `:` whose right side
is not integer-parseable, the route reports the part before the first `:`
as the state, reports no percent, and still answers 200 (it never fails on
a malformed status). -/
theorem C2_lenient_decoding (status_store meta_store : Store)
    (app_instance job_id raw : String)
    (hraw : hget status_store job_id = some raw)
    (hc : ':' ∈ raw.toList)
    (hbad : pyParseInt (String.mk (splitFirstColon raw.toList).2) = none) :
    (get_job_status_route status_store meta_store app_instance job_id).1
      = .ok job_id (String.mk (splitFirstColon raw.toList).1) app_instance none := by
  unfold get_job_status_route
  rw [hraw]
  simp only [get_job_status_view_malformed raw hc hbad]

/-- Witness for C2 at the concrete stored status `queued:soon`. -/
theorem C2_witness :
    (get_job_status_route (hset [] "job-7" "queued:soon") [] "app1" "job-7").1
      = .ok "job-7" (String.mk (splitFirstColon ("queued:soon").toList).1)
          "app1" none :=
  C2_lenient_decoding (hset [] "job-7" "queued:soon") [] "app1" "job-7"
    "queued:soon" rfl (by decide) rfl

/-- C3 counterexample: with the pipeline write faulting, `generate` yields
no response of its own at all — the exception propagates out of the route,
so no queuing-failure body carrying the allocated job id is returned. -/
theorem C3_counterexample :
    generate none none (fun _ => false) false (some "a cat")
        "3f2b6c1e-aaaa-bbbb-cccc-000000000000" "app1" ⟨[], [], []⟩
      = .error () := rfl

/-- C3 (amended): for every valid prompt submitted while the gate reports
ready, a faulting queue/store write makes `generate` propagate the store
exception unhandled — the caller gets the framework's unannotated failure,
without the allocated job id, and no state is written. -/
theorem C3_queue_fault_propagates (rp bp : Option String) (fs : String → Bool)
    (st : AppState) (prompt job_id app_instance : String)
    (hp : prompt ≠ "")
    (hready : (_server_status rp bp fs).ready = true) :
    generate rp bp fs false (some prompt) job_id app_instance st
      = .error () := by
  unfold generate
  have h1 : ¬ (some prompt = none ∨ some prompt = some "") := by
    rintro (h | h)
    · cases h
    · exact hp (by injection h)
  have h2 : ¬ ((_server_status rp bp fs).ready = false) := by
    rw [hready]
    simp
  rw [if_neg h1, if_neg h2, if_pos rfl]

/-- Witness for C3 (amended) at a concrete prompt with the gate untracked. -/
theorem C3_witness :
    generate none none (fun _ => true) false (some "a dog") "job-9" "app2"
        ⟨[], [], []⟩ = .error () :=
  C3_queue_fault_propagates none none (fun _ => true) ⟨[], [], []⟩ "a dog"
    "job-9" "app2" (by decide) rfl

/-- C7: for every non-empty prompt submitted while the gate reports ready,
`generate` answers 202 `queued`/0, writes the status record `queued:0` for
the fresh job id, and an immediately following status query for that id
returns state `queued` with percent 0. -/
theorem C7_submit_then_status (rp bp : Option String) (fs : String → Bool)
    (st : AppState) (prompt job_id app_instance : String)
    (hp : prompt ≠ "")
    (hready : (_server_status rp bp fs).ready = true) :
    ∃ st' : AppState,
      generate rp bp fs true (some prompt) job_id app_instance st
          = .ok (st', .accepted job_id "queued" 0 app_instance)
        ∧ hget st'.status_store job_id
            = some ("queued" ++ ":" ++ toString (0 : Int))
        ∧ (get_job_status_route st'.status_store st'.meta_store
              app_instance job_id).1
            = .ok job_id "queued" app_instance (some 0) := by
  have h1 : ¬ (some prompt = none ∨ some prompt = some "") := by
    rintro (h | h)
    · cases h
    · exact hp (by injection h)
  have h2 : ¬ ((_server_status rp bp fs).ready = false) := by
    rw [hready]
    simp
  refine ⟨{ status_store :=
              hset st.status_store job_id (AppPy._format_status "queued" (some 0)),
            meta_store := hset st.meta_store job_id app_instance,
            queue := st.queue ++
              [{ job_id := job_id, prompt := (some prompt).getD "",
                 handled_by := some app_instance }] }, ?_, ?_, ?_⟩
  · unfold generate
    rw [if_neg h1, if_neg h2, if_neg (by simp)]
  · rw [hget_hset_self]
    rfl
  · unfold get_job_status_route
    rw [hget_hset_self]
    rfl

/-- Witness for C7 at a concrete prompt with the gate untracked. -/
theorem C7_witness :
    ∃ st' : AppState,
      generate none none (fun _ => false) true (some "a cat") "job-1" "app1"
          ⟨[], [], []⟩
          = .ok (st', .accepted "job-1" "queued" 0 "app1")
        ∧ hget st'.status_store "job-1"
            = some ("queued" ++ ":" ++ toString (0 : Int))
        ∧ (get_job_status_route st'.status_store st'.meta_store "app1" "job-1").1
            = .ok "job-1" "queued" "app1" (some 0) :=
  C7_submit_then_status none none (fun _ => false) ⟨[], [], []⟩ "a cat" "job-1"
    "app1" (by decide) rfl

/-- C8: the readiness gate is a function of marker existence only — when no
ready marker is configured it reports ready with the "not tracked" message;
when configured, `ready` is true iff the ready marker exists and, when not
ready, `building` is true iff the building marker exists; the result does
not depend on anything but the markers' existence, and the message is a
fixed function of the state combination. -/
theorem C8_readiness_gate (rp bp : Option String) (fs gs : String → Bool) :
    (rp = none →
      _server_status rp bp fs
        = { ready := true, building := false,
            message := "Server status not tracked." })
    ∧ (∀ r, rp = some r → (_server_status rp bp fs).ready = fs r)
    ∧ (∀ r, rp = some r → fs r = false →
        (_server_status rp bp fs).building
          = (match bp with | some b => fs b | none => false))
    ∧ ((∀ r, rp = some r → fs r = gs r) → (∀ b, bp = some b → fs b = gs b) →
        _server_status rp bp fs = _server_status rp bp gs)
    ∧ ((_server_status rp bp fs).message
        = if rp = none then "Server status not tracked."
          else if (_server_status rp bp fs).ready then "Server ready"
          else if (_server_status rp bp fs).building then
            "Server is currently building. Generation will be available once preparation completes."
          else "Server is not yet ready.") := by
  cases rp with
  | none =>
      refine ⟨fun _ => rfl, ?_, ?_, fun _ _ => rfl, ?_⟩
      · intro r hr
        simp at hr
      · intro r hr
        simp at hr
      · simp [_server_status]
  | some r =>
      refine ⟨?_, ?_, ?_, ?_, ?_⟩
      · intro h
        simp at h
      · intro r' hr'
        injection hr' with e
        subst e
        by_cases hfr : fs r <;> simp [_server_status, hfr]
      · intro r' hr' hfr'
        injection hr' with e
        subst e
        cases bp <;> simp [_server_status, hfr']
      · intro hA hB
        have e := hA r rfl
        cases bp with
        | none =>
            simp only [_server_status, ← e]
        | some b =>
            have eb := hB b rfl
            simp only [_server_status, ← e, ← eb]
      · by_cases hfr : fs r
        · simp [_server_status, hfr]
        · cases bp with
          | none => simp [_server_status, hfr]
          | some b => by_cases hfb : fs b <;> simp [_server_status, hfr, hfb]

/-- Witness for C8: the building-marker conjunct at concrete paths and a
concrete filesystem where only the building marker exists. -/
theorem C8_witness :
    (_server_status (some "ready-marker") (some "building-marker")
        (fun s => s == "building-marker")).building
      = (match (some "building-marker" : Option String) with
         | some b => (fun s : String => s == "building-marker") b
         | none => false) :=
  (C8_readiness_gate (some "ready-marker") (some "building-marker")
      (fun s => s == "building-marker")
      (fun s => s == "building-marker")).2.2.1 "ready-marker" rfl (by decide)

/-! ## Claim theorems: output resolver -/

/-- C1: a job id containing `/` or `\` is rejected with InvalidId before
any path is built; a job id whose canonicalized candidate path is not a
descendant of the generated root is rejected with InvalidId; and whenever
the route answers anything other than InvalidId, the canonical candidate —
the only path it checks or serves — is contained in the root. -/
theorem C1_output_resolver (generated_root : List String)
    (fsExists : List String → Bool) (job_id : String) :
    (('/' ∈ job_id.toList ∨ '\\' ∈ job_id.toList) →
        get_job_output generated_root fsExists job_id = .invalidId)
    ∧ (generated_root.isPrefixOf
          (resolveSegs (generated_root ++ [job_id, "out.mp4"])) = false →
        get_job_output generated_root fsExists job_id = .invalidId)
    ∧ (get_job_output generated_root fsExists job_id ≠ .invalidId →
        generated_root.isPrefixOf
          (resolveSegs (generated_root ++ [job_id, "out.mp4"])) = true)
    ∧ (∀ p, get_job_output generated_root fsExists job_id = .file p →
        generated_root.isPrefixOf p = true
        ∧ p = resolveSegs (generated_root ++ [job_id, "out.mp4"])) := by
  refine ⟨?_, ?_, ?_, ?_⟩
  · intro h
    simp only [get_job_output]
    rw [if_pos h]
  · intro h
    simp only [get_job_output]
    by_cases hsep : ('/' ∈ job_id.toList ∨ '\\' ∈ job_id.toList)
    · rw [if_pos hsep]
    · rw [if_neg hsep]
      simp [h]
  · intro hne
    simp only [get_job_output] at hne
    by_cases hsep : ('/' ∈ job_id.toList ∨ '\\' ∈ job_id.toList)
    · rw [if_pos hsep] at hne
      exact absurd rfl hne
    · rw [if_neg hsep] at hne
      cases hb : generated_root.isPrefixOf
          (resolveSegs (generated_root ++ [job_id, "out.mp4"])) with
      | true => rfl
      | false =>
          rw [hb] at hne
          simp at hne
  · intro p hp
    simp only [get_job_output] at hp
    split_ifs at hp with hsep hpre hex
    all_goals cases hp
    exact ⟨hpre, rfl⟩

/-- Witness for C1: a separator-carrying id and a parent-traversal id are
both rejected at a concrete root. -/
theorem C1_witness :
    get_job_output ["srv", "generated"] (fun _ => true) "a/b" = .invalidId
    ∧ get_job_output ["srv", "generated"] (fun _ => true) ".." = .invalidId :=
  ⟨(C1_output_resolver ["srv", "generated"] (fun _ => true) "a/b").1
      (Or.inl (by decide)),
   (C1_output_resolver ["srv", "generated"] (fun _ => true) "..").2.1 (by decide)⟩

/-! ## Lemmas about the worker -/

theorem _set_status_last_percent (st : WorkerState) (job_id state : String)
    (percent : Option Int) :
    (_set_status st job_id state percent).last_percent = st.last_percent := rfl

theorem _set_status_status_store (st : WorkerState) (job_id state : String)
    (percent : Option Int) :
    (_set_status st job_id state percent).status_store
      = hset st.status_store job_id (InferencePy._format_status state percent) :=
  rfl

theorem _set_status_writes (st : WorkerState) (job_id state : String)
    (percent : Option Int) :
    (_set_status st job_id state percent).writes
      = st.writes ++ [(job_id, InferencePy._format_status state percent)] := rfl

theorem record_attribution_status_store (st : WorkerState) (job : JobDescriptor) :
    (record_attribution st job).status_store = st.status_store := by
  unfold record_attribution
  cases job.handled_by with
  | none => rfl
  | some h => by_cases hh : h ≠ "" <;> simp [hh]

theorem record_attribution_last_percent (st : WorkerState) (job : JobDescriptor) :
    (record_attribution st job).last_percent = st.last_percent := by
  unfold record_attribution
  cases job.handled_by with
  | none => rfl
  | some h => by_cases hh : h ≠ "" <;> simp [hh]

theorem record_attribution_writes (st : WorkerState) (job : JobDescriptor) :
    (record_attribution st job).writes = st.writes := by
  unfold record_attribution
  cases job.handled_by with
  | none => rfl
  | some h => by_cases hh : h ≠ "" <;> simp [hh]

theorem format_status_of_bounds (state : String) (q : Int) (h0 : 0 ≤ q)
    (h1 : q ≤ 100) :
    InferencePy._format_status state (some q) = state ++ ":" ++ toString q := by
  show state ++ ":" ++ toString (max 0 (min 100 q)) = state ++ ":" ++ toString q
  rw [clamp100_of_le q h0 h1]

theorem progress_callback_cases (job_id : String) (st : WorkerState) (p : Int) :
    progress_callback job_id st p = st
    ∨ progress_callback job_id st p
        = _set_status { st with last_percent := max 0 (min 99 p) } job_id
            "running" (some (max 0 (min 99 p))) := by
  simp only [progress_callback]
  by_cases h : max 0 (min 99 p) ≠ st.last_percent
  · right
    rw [if_pos h]
  · left
    rw [if_neg h]

theorem progress_callback_last_bounds (job_id : String) (st : WorkerState)
    (p : Int) (h0 : 0 ≤ st.last_percent) (h1 : st.last_percent ≤ 99) :
    0 ≤ (progress_callback job_id st p).last_percent
    ∧ (progress_callback job_id st p).last_percent ≤ 99 := by
  rcases progress_callback_cases job_id st p with h | h <;> rw [h]
  · exact ⟨h0, h1⟩
  · rw [_set_status_last_percent]
    exact ⟨bounded99_nonneg p, bounded99_le p⟩

theorem run_callbacks_cons (job_id : String) (st : WorkerState) (p : Int)
    (ps : List Int) :
    run_callbacks job_id st (p :: ps)
      = run_callbacks job_id (progress_callback job_id st p) ps := rfl

theorem run_callbacks_last_bounds (job_id : String) (ps : List Int)
    (st : WorkerState) (h0 : 0 ≤ st.last_percent) (h1 : st.last_percent ≤ 99) :
    0 ≤ (run_callbacks job_id st ps).last_percent
    ∧ (run_callbacks job_id st ps).last_percent ≤ 99 := by
  induction ps generalizing st with
  | nil => exact ⟨h0, h1⟩
  | cons p ps ih =>
      have hb := progress_callback_last_bounds job_id st p h0 h1
      exact ih _ hb.1 hb.2

theorem progress_callback_status_other (job_id : String) (st : WorkerState)
    (p : Int) (k : String) (hk : k ≠ job_id) :
    hget (progress_callback job_id st p).status_store k
      = hget st.status_store k := by
  rcases progress_callback_cases job_id st p with h | h <;> rw [h]
  rw [_set_status_status_store]
  exact hget_hset_other _ _ _ _ hk

theorem run_callbacks_status_other (job_id : String) (ps : List Int)
    (st : WorkerState) (k : String) (hk : k ≠ job_id) :
    hget (run_callbacks job_id st ps).status_store k
      = hget st.status_store k := by
  induction ps generalizing st with
  | nil => rfl
  | cons p ps ih =>
      rw [run_callbacks_cons, ih _]
      exact progress_callback_status_other job_id st p k hk

theorem _process_job_status_other (status_store meta_store : Store)
    (job : JobDescriptor) (run : JobRun) (k : String) (hk : k ≠ job.job_id) :
    hget (_process_job status_store meta_store job run).status_store k
      = hget status_store k := by
  rcases run with ⟨ps, outcome⟩
  cases outcome <;>
    (simp only [_process_job]
     rw [_set_status_status_store, hget_hset_other _ _ _ _ hk,
       run_callbacks_status_other _ _ _ _ hk, _set_status_status_store,
       hget_hset_other _ _ _ _ hk, record_attribution_status_store])

theorem worker_run_cons (status_store meta_store : Store) (j : JobDescriptor)
    (r : JobRun) (rest : List (JobDescriptor × JobRun)) :
    worker_run status_store meta_store ((j, r) :: rest)
      = worker_run (_process_job status_store meta_store j r).status_store
          (_process_job status_store meta_store j r).meta_store rest := rfl

theorem worker_run_status_other (jobs : List (JobDescriptor × JobRun))
    (status_store meta_store : Store) (k : String)
    (h : ∀ x ∈ jobs, x.1.job_id ≠ k) :
    hget (worker_run status_store meta_store jobs).1 k = hget status_store k := by
  induction jobs generalizing status_store meta_store with
  | nil => rfl
  | cons x rest ih =>
      obtain ⟨j, r⟩ := x
      rw [worker_run_cons, ih _ _ (fun y hy => h y (List.mem_cons_of_mem _ hy))]
      exact _process_job_status_other _ _ _ _ _
        (Ne.symm (h ⟨j, r⟩ (List.mem_cons_self _ _)))

theorem _process_job_failure_status (status_store meta_store : Store)
    (job : JobDescriptor) (run : JobRun) (hfail : run.outcome = .failure) :
    hget (_process_job status_store meta_store job run).status_store job.job_id
        = some ("failed" ++ ":" ++
            toString (_process_job status_store meta_store job run).last_percent)
    ∧ 0 ≤ (_process_job status_store meta_store job run).last_percent
    ∧ (_process_job status_store meta_store job run).last_percent ≤ 99 := by
  rcases run with ⟨ps, outcome⟩
  subst hfail
  simp only [_process_job]
  have hb := run_callbacks_last_bounds job.job_id ps
    (_set_status (record_attribution
        { last_percent := 0, status_store := status_store,
          meta_store := meta_store, writes := [] } job)
      job.job_id "running" (some 0))
    (by simp [_set_status_last_percent, record_attribution_last_percent])
    (by simp [_set_status_last_percent, record_attribution_last_percent])
  have hmin : min 100 (run_callbacks job.job_id
      (_set_status (record_attribution
          { last_percent := 0, status_store := status_store,
            meta_store := meta_store, writes := [] } job)
        job.job_id "running" (some 0)) ps).last_percent
      = (run_callbacks job.job_id
      (_set_status (record_attribution
          { last_percent := 0, status_store := status_store,
            meta_store := meta_store, writes := [] } job)
        job.job_id "running" (some 0)) ps).last_percent :=
    min_eq_right (hb.2.trans (by norm_num))
  refine ⟨?_, ?_, ?_⟩
  · rw [_set_status_status_store, hget_hset_self, _set_status_last_percent,
      format_status_of_bounds _ _ (le_min (by norm_num) hb.1) (min_le_left _ _),
      hmin]
  · rw [_set_status_last_percent]
    exact hb.1
  · rw [_set_status_last_percent]
    exact hb.2

/-! ## Claim theorems: worker progress, failure containment, write bounds -/

/-- C5 counterexample: starting from the freshly written `running:0` state,
reporting percent 100 through the progress callback stores `running:99`
(the callback bounds to 99), not the [0,100]-clamped value 100 the claim
states. -/
theorem C5_counterexample :
    hget (progress_callback "j"
        ⟨0, hset [] "j" ("running" ++ ":" ++ toString (0 : Int)), [], []⟩
        100).status_store "j"
      = some ("running" ++ ":" ++ toString (99 : Int))
    ∧ (get_job_status_view ("running" ++ ":" ++ toString (99 : Int))).percent
        = some 99
    ∧ ¬ ((99 : Int) = max 0 (min 100 100)) :=
  ⟨rfl, rfl, by decide⟩

/-- C5 (amended): for every integer percent reported through the progress
callback, the stored status record carries that value clamped to [0, 99],
and the status decoder recovers exactly that clamped integer. -/
theorem C5_progress_clamped (st : WorkerState) (job_id : String) (p : Int)
    (hstore : hget st.status_store job_id
        = some ("running" ++ ":" ++ toString st.last_percent)) :
    hget (progress_callback job_id st p).status_store job_id
        = some ("running" ++ ":" ++ toString (max 0 (min 99 p)))
    ∧ (get_job_status_view
          ("running" ++ ":" ++ toString (max 0 (min 99 p)))).percent
        = some (max 0 (min 99 p)) := by
  constructor
  · simp only [progress_callback]
    by_cases h : max 0 (min 99 p) ≠ st.last_percent
    · rw [if_pos h, _set_status_status_store, hget_hset_self,
        format_status_of_bounds _ _ (bounded99_nonneg p)
          ((bounded99_le p).trans (by norm_num))]
    · rw [if_neg h]
      push_neg at h
      rw [hstore, h]
  · rw [get_job_status_view_format "running" (by decide) _
      (bounded99_nonneg p) ((bounded99_le p).trans (by norm_num))]

/-- Witness for C5 (amended) at the reported percent 150 from a fresh
`running:0` state. -/
theorem C5_witness :
    hget (progress_callback "j"
        ⟨0, hset [] "j" ("running" ++ ":" ++ toString (0 : Int)), [], []⟩
        150).status_store "j"
      = some ("running" ++ ":" ++ toString (max 0 (min 99 (150 : Int))))
    ∧ (get_job_status_view
          ("running" ++ ":" ++ toString (max 0 (min 99 (150 : Int))))).percent
        = some (max 0 (min 99 (150 : Int))) :=
  C5_progress_clamped
    ⟨0, hset [] "j" ("running" ++ ":" ++ toString (0 : Int)), [], []⟩
    "j" 150 rfl

/-- C6: when the compute routine raises, the worker records `failed:p` for
that job, where `p` is the last known percent (bounded to at most 100), and
the loop goes on to process every remaining job — the failure never
terminates the worker. -/
theorem C6_failure_contained (status_store meta_store : Store)
    (j : JobDescriptor) (r : JobRun) (rest : List (JobDescriptor × JobRun))
    (hfail : r.outcome = .failure)
    (hrest : ∀ x ∈ rest, x.1.job_id ≠ j.job_id) :
    hget (worker_run status_store meta_store ((j, r) :: rest)).1 j.job_id
        = some ("failed" ++ ":" ++
            toString (_process_job status_store meta_store j r).last_percent)
    ∧ (_process_job status_store meta_store j r).last_percent ≤ 100
    ∧ worker_run status_store meta_store ((j, r) :: rest)
        = worker_run (_process_job status_store meta_store j r).status_store
            (_process_job status_store meta_store j r).meta_store rest := by
  have hl := _process_job_failure_status status_store meta_store j r hfail
  refine ⟨?_, ?_, ?_⟩
  · rw [worker_run_cons, worker_run_status_other rest _ _ _ hrest]
    exact hl.1
  · exact hl.2.2.trans (by norm_num)
  · exact worker_run_cons _ _ _ _ _

/-- Witness for C6: a concrete failing job followed by a successful one. -/
theorem C6_witness :
    hget (worker_run [] [] ((⟨"j1", "a cat", none⟩, ⟨[10, 55], .failure⟩)
          :: [(⟨"j2", "a dog", none⟩, ⟨[], .success⟩)])).1 "j1"
        = some ("failed" ++ ":" ++
            toString (_process_job [] [] ⟨"j1", "a cat", none⟩
                ⟨[10, 55], .failure⟩).last_percent)
    ∧ (_process_job [] [] ⟨"j1", "a cat", none⟩
          ⟨[10, 55], .failure⟩).last_percent ≤ 100
    ∧ worker_run [] [] ((⟨"j1", "a cat", none⟩, ⟨[10, 55], .failure⟩)
          :: [(⟨"j2", "a dog", none⟩, ⟨[], .success⟩)])
        = worker_run
            (_process_job [] [] ⟨"j1", "a cat", none⟩
              ⟨[10, 55], .failure⟩).status_store
            (_process_job [] [] ⟨"j1", "a cat", none⟩
              ⟨[10, 55], .failure⟩).meta_store
            [(⟨"j2", "a dog", none⟩, ⟨[], .success⟩)] :=
  C6_failure_contained [] [] ⟨"j1", "a cat", none⟩ ⟨[10, 55], .failure⟩
    [(⟨"j2", "a dog", none⟩, ⟨[], .success⟩)] rfl (by decide)

theorem status_view_running_like (s : String) (hs : ':' ∉ s.toList) (b : Int)
    (h0 : 0 ≤ b) (h1 : b ≤ 99) :
    ((get_job_status_view (s ++ ":" ++ toString b)).status = "running"
        ∨ (get_job_status_view (s ++ ":" ++ toString b)).status = "failed" →
      ∃ q : Int, (get_job_status_view (s ++ ":" ++ toString b)).percent = some q
        ∧ q ≤ 99)
    ∧ ((get_job_status_view (s ++ ":" ++ toString b)).percent = some 100 →
      (get_job_status_view (s ++ ":" ++ toString b)).status = "completed") := by
  rw [get_job_status_view_format s hs b h0 (h1.trans (by norm_num))]
  constructor
  · intro _
    exact ⟨b, rfl, h1⟩
  · intro h
    simp at h
    omega

theorem run_callbacks_writes_mem (job_id : String) (ps : List Int)
    (st : WorkerState) (w : String × String)
    (hw : w ∈ (run_callbacks job_id st ps).writes) :
    w ∈ st.writes
    ∨ ∃ b : Int, 0 ≤ b ∧ b ≤ 99
        ∧ w = (job_id, "running" ++ ":" ++ toString b) := by
  induction ps generalizing st with
  | nil => exact Or.inl hw
  | cons p ps ih =>
      rcases ih (progress_callback job_id st p) hw with h | h
      · rcases progress_callback_cases job_id st p with hc | hc
        · rw [hc] at h
          exact Or.inl h
        · rw [hc, _set_status_writes] at h
          rcases List.mem_append.1 h with h' | h'
          · exact Or.inl h'
          · right
            refine ⟨max 0 (min 99 p), bounded99_nonneg p, bounded99_le p, ?_⟩
            rw [List.mem_singleton.1 h',
              format_status_of_bounds _ _ (bounded99_nonneg p)
                ((bounded99_le p).trans (by norm_num))]
      · exact Or.inr h

theorem process_writes_running_good (job_id : String) (ps : List Int)
    (st : WorkerState) (w : String × String)
    (hst : st.writes = [(job_id, InferencePy._format_status "running" (some 0))])
    (hw : w ∈ (run_callbacks job_id st ps).writes) :
    ((get_job_status_view w.2).status = "running"
        ∨ (get_job_status_view w.2).status = "failed" →
      ∃ q : Int, (get_job_status_view w.2).percent = some q ∧ q ≤ 99)
    ∧ ((get_job_status_view w.2).percent = some 100 →
      (get_job_status_view w.2).status = "completed") := by
  rcases run_callbacks_writes_mem _ _ _ _ hw with h2 | ⟨b, hb0, hb99, e⟩
  · rw [hst] at h2
    have hv : w.2 = InferencePy._format_status "running" (some 0) := by
      rw [List.mem_singleton.1 h2]
    rw [hv, format_status_of_bounds "running" 0 (by norm_num) (by norm_num)]
    exact status_view_running_like "running" (by decide) 0 (by norm_num) (by norm_num)
  · have hv : w.2 = "running" ++ ":" ++ toString b := by rw [e]
    rw [hv]
    exact status_view_running_like "running" (by decide) b hb0 hb99

/-- C10: every status the worker writes with state `running` or `failed`
carries a percent of at most 99, whatever percent values the compute
routine reports; a stored percent of 100 occurs only together with state
`completed`. -/
theorem C10_worker_writes_bounded (status_store meta_store : Store)
    (job : JobDescriptor) (run : JobRun) (w : String × String)
    (hw : w ∈ (_process_job status_store meta_store job run).writes) :
    ((get_job_status_view w.2).status = "running"
        ∨ (get_job_status_view w.2).status = "failed" →
      ∃ q : Int, (get_job_status_view w.2).percent = some q ∧ q ≤ 99)
    ∧ ((get_job_status_view w.2).percent = some 100 →
      (get_job_status_view w.2).status = "completed") := by
  rcases run with ⟨ps, outcome⟩
  have hst2 : (_set_status (record_attribution
      { last_percent := 0, status_store := status_store,
        meta_store := meta_store, writes := [] } job)
      job.job_id "running" (some 0)).writes
      = [(job.job_id, InferencePy._format_status "running" (some 0))] := by
    rw [_set_status_writes, record_attribution_writes]
    rfl
  have hb := run_callbacks_last_bounds job.job_id ps
    (_set_status (record_attribution
        { last_percent := 0, status_store := status_store,
          meta_store := meta_store, writes := [] } job)
      job.job_id "running" (some 0))
    (by simp [_set_status_last_percent, record_attribution_last_percent])
    (by simp [_set_status_last_percent, record_attribution_last_percent])
  cases outcome with
  | success =>
      simp only [_process_job] at hw
      rw [_set_status_writes] at hw
      rcases List.mem_append.1 hw with h3 | hterm
      · exact process_writes_running_good _ _ _ _ hst2 h3
      · have hv : w.2 = InferencePy._format_status "completed" (some 100) := by
          rw [List.mem_singleton.1 hterm]
        have hview : get_job_status_view w.2 = ⟨"completed", some 100⟩ := by
          rw [hv]
          rfl
        rw [hview]
        exact ⟨fun h => absurd h (by decide), fun _ => rfl⟩
  | failure =>
      simp only [_process_job] at hw
      rw [_set_status_writes] at hw
      rcases List.mem_append.1 hw with h3 | hterm
      · exact process_writes_running_good _ _ _ _ hst2 h3
      · have hmin : min 100 (run_callbacks job.job_id
            (_set_status (record_attribution
                { last_percent := 0, status_store := status_store,
                  meta_store := meta_store, writes := [] } job)
              job.job_id "running" (some 0)) ps).last_percent
            = (run_callbacks job.job_id
            (_set_status (record_attribution
                { last_percent := 0, status_store := status_store,
                  meta_store := meta_store, writes := [] } job)
              job.job_id "running" (some 0)) ps).last_percent :=
          min_eq_right (hb.2.trans (by norm_num))
        have hv : w.2 = "failed" ++ ":" ++ toString
            (run_callbacks job.job_id
              (_set_status (record_attribution
                  { last_percent := 0, status_store := status_store,
                    meta_store := meta_store, writes := [] } job)
                job.job_id "running" (some 0)) ps).last_percent := by
          rw [List.mem_singleton.1 hterm, hmin,
            format_status_of_bounds _ _ hb.1 (hb.2.trans (by norm_num))]
        rw [hv]
        exact status_view_running_like "failed" (by decide) _ hb.1 hb.2

/-- Witness for C10: the terminal write of a concrete failing run. -/
theorem C10_witness :
    ((get_job_status_view (("j1", "failed:55") : String × String).2).status
          = "running"
        ∨ (get_job_status_view (("j1", "failed:55") : String × String).2).status
          = "failed" →
      ∃ q : Int,
        (get_job_status_view (("j1", "failed:55") : String × String).2).percent
            = some q
        ∧ q ≤ 99)
    ∧ ((get_job_status_view (("j1", "failed:55") : String × String).2).percent
          = some 100 →
      (get_job_status_view (("j1", "failed:55") : String × String).2).status
          = "completed") :=
  C10_worker_writes_bounded [] [] ⟨"j1", "a cat", none⟩ ⟨[55], .failure⟩
    ("j1", "failed:55") (by decide)

end Zeus
